import Mathlib

/-!
Shallow embedding of the `@bjnstnkvc/local-storage` library
(`src/src/storage/LocalStorage.ts` and the bundled `LocalStorageFake`
from `lib/main.umd.js`).

Modelling conventions:
* JS values that can flow through `JSON.stringify`/`JSON.parse` are the
  inductive `JsonVal`; numbers are modelled as integers (every number the
  library itself produces — `Date.now()`, `ttl * 1000` sums — is integral).
* The backing `Storage` string for an entry is modelled by its parse
  outcome: `Stored.json v` stands for a string whose `JSON.parse` yields
  `v` (its text is `stringify v`), `Stored.raw s` for a string on which
  `JSON.parse` throws.
* `Date.now()` is passed explicitly as `now : Int` (milliseconds).
* The JS call stack is modelled by an explicit fuel parameter on the
  mutually recursive `get`/`remove`/`has`; entering a call with no fuel
  raises the stack-overflow exception, which propagates until the
  `try`/`catch` inside `get` absorbs it — exactly as a real engine's
  `RangeError` does on an expired entry's `get → remove → has → get`
  cycle.
* Event listeners are not modelled (the event bus is an external
  collaborator); emission is recorded as an ordered trace.
-/

namespace LocalStorageSpec

/-- JSON-representable JavaScript values. -/
inductive JsonVal where
  | jnull : JsonVal
  | jbool : Bool → JsonVal
  | jnum : Int → JsonVal
  | jstr : String → JsonVal
  | jarr : List JsonVal → JsonVal
  | jobj : List (String × JsonVal) → JsonVal

namespace JsonVal

/-- JS truthiness of a value (`!!v`). `NaN`/`-0` do not arise in the
integer model. -/
def truthy : JsonVal → Bool
  | .jnull => false
  | .jbool b => b
  | .jnum n => n != 0
  | .jstr s => s != ""
  | .jarr _ => true
  | .jobj _ => true

/-- `v === null` as a Boolean test. -/
def isNull : JsonVal → Bool
  | .jnull => true
  | _ => false

end JsonVal

/-- First-match lookup in an association list (JS own-property read:
`obj[k]`, `undefined` as `none`). -/
def lookupEntry {α : Type} : List (String × α) → String → Option α
  | [], _ => none
  | (k', v') :: rest, k => if k' = k then some v' else lookupEntry rest k

/-- JS own-property assignment `obj[k] = v`: overwrite in place, else
append (insertion order preserved). -/
def setEntry {α : Type} : List (String × α) → String → α → List (String × α)
  | [], k, v => [(k, v)]
  | (k', v') :: rest, k, v =>
    if k' = k then (k, v) :: rest else (k', v') :: setEntry rest k v

/-- JS `delete obj[k]` (keys are unique in a JS object, so removing every
occurrence coincides with removing the own property). -/
def removeEntry {α : Type} : List (String × α) → String → List (String × α)
  | [], _ => []
  | (k', v') :: rest, k =>
    if k' = k then removeEntry rest k else (k', v') :: removeEntry rest k

/-- Escape one character for a JSON string literal, as
`JSON.stringify` does. -/
def jsonEscapeChar (c : Char) : String :=
  if c = '"' then "\\\""
  else if c = '\\' then "\\\\"
  else if c = '\n' then "\\n"
  else if c = '\t' then "\\t"
  else if c = '\r' then "\\r"
  else if c.toNat < 32 then "\\u" ++ (Nat.toDigits 16 c.toNat).asString
  else String.singleton c

/-- Escape a string body for a JSON string literal. -/
def jsonEscape (s : String) : String :=
  String.join (s.toList.map jsonEscapeChar)

mutual

/-- `JSON.stringify` on the modelled value domain. -/
def stringify : JsonVal → String
  | .jnull => "null"
  | .jbool true => "true"
  | .jbool false => "false"
  | .jnum n => toString n
  | .jstr s => "\"" ++ jsonEscape s ++ "\""
  | .jarr xs => "[" ++ stringifyList xs ++ "]"
  | .jobj fs => "\x7b" ++ stringifyFields fs ++ "\x7d"

/-- Comma-separated serialization of array elements. -/
def stringifyList : List JsonVal → String
  | [] => ""
  | [x] => stringify x
  | x :: y :: rest => stringify x ++ "," ++ stringifyList (y :: rest)

/-- Comma-separated serialization of object fields. -/
def stringifyFields : List (String × JsonVal) → String
  | [] => ""
  | [(k, v)] => "\"" ++ jsonEscape k ++ "\":" ++ stringify v
  | (k, v) :: f :: rest =>
    "\"" ++ jsonEscape k ++ "\":" ++ stringify v ++ "," ++
      stringifyFields (f :: rest)

end

/-- A backing-store string, represented by its `JSON.parse` outcome:
`json v` is a string parsing to `v` (text `stringify v`), `raw s` a
string on which `JSON.parse` throws. -/
inductive Stored where
  | json : JsonVal → Stored
  | raw : String → Stored

/-- The literal text of a backing-store string. -/
def storedText : Stored → String
  | .json v => stringify v
  | .raw s => s

/-- `new Blob([keyName, keyValue]).size`: UTF-8 byte size of the
concatenation (`LocalStorageFake.size`). -/
def blobSize (keyName keyValue : String) : Nat :=
  (keyName ++ keyValue).utf8ByteSize

/-- The active `Storage` backend seen by the engine: the key/string
mapping plus an optional capacity quota (`none` = the real
`localStorage`, modelled as unbounded; `some q` = a fake with quota
`q`). -/
structure Backend where
  items : List (String × Stored)
  quota : Option Nat

/-- `storage.getItem(key)` at the engine level. (The fake's empty-string
falsiness quirk cannot be observed here: the engine only ever stores
`JSON.stringify` output, which is never empty; the quirk is modelled and
settled at the string level below.) -/
def Backend.lookup (b : Backend) (k : String) : Option Stored :=
  lookupEntry b.items k

/-- Recomputed used space: sum of byte sizes of all key/value pairs
(`LocalStorageFake.space`). -/
def spaceOf (items : List (String × Stored)) : Nat :=
  (items.map (fun p => blobSize p.1 (storedText p.2))).foldr (· + ·) 0

/-- `storage.setItem(key, value)`: stores the value, or — when a quota
is active and `size + used > quota` — throws (`none`) without mutating
(`LocalStorageFake.setItem`; `used` always equals the recomputed space,
proved below, so the check recomputes it). -/
def Backend.setItem (b : Backend) (k : String) (st : Stored) :
    Option Backend :=
  match b.quota with
  | none => some { b with items := setEntry b.items k st }
  | some q =>
    if blobSize k (storedText st) + spaceOf b.items > q then none
    else some { b with items := setEntry b.items k st }

/-- `storage.removeItem(key)`. -/
def Backend.removeItem (b : Backend) (k : String) : Backend :=
  { b with items := removeEntry b.items k }

/-- The lifecycle events, in the order the engine emits them. -/
inductive Event where
  | retrieving : String → Event
  | hit : String → JsonVal → Event
  | missed : String → Event
  | writing : String → JsonVal → Option Int → Event
  | written : String → JsonVal → Option Int → Event
  | writeFailed : String → JsonVal → Option Int → Event
  | forgotten : String → Event
  | forgotFailed : String → Event
  | flushing : Event
  | flushed : Event

/-- `ttl ?? this.#ttl`: per-call TTL, else the process-wide default. -/
def ttlOr (ttl dttl : Option Int) : Option Int :=
  match ttl with
  | some t => some t
  | none => dttl

/-- `ttl ? Date.now() + ttl * 1000 : null`: a *truthy* TTL (nonzero)
yields an absolute expiry; `null` or `0` yield no expiry. -/
def computeExpiry (t : Option Int) (now : Int) : Option Int :=
  match t with
  | none => none
  | some x => if x = 0 then none else some (now + x * 1000)

/-- The expiry field as the JSON value `JSON.stringify` records. -/
def expiryJson : Option Int → JsonVal
  | none => .jnull
  | some n => .jnum n

/-- The item envelope `{ data: value, expiry: ... }` built by `set`. -/
def envelope (v : JsonVal) (e : Option Int) : JsonVal :=
  .jobj [("data", v), ("expiry", expiryJson e)]

/-- `item.expiry` of a parsed (non-`null`) value: object field read,
`undefined` (`none`) on every non-object. -/
def expiryField : JsonVal → Option JsonVal
  | .jobj fs => lookupEntry fs "expiry"
  | _ => none

/-- `item.data` of a parsed (non-`null`) value. -/
def dataField : JsonVal → Option JsonVal
  | .jobj fs => lookupEntry fs "data"
  | _ => none

/-- Value of one digit character in the given base, as JS numeric
literals read it. -/
def digitVal (base : Nat) (c : Char) : Option Nat :=
  let v : Option Nat :=
    if '0' ≤ c ∧ c ≤ '9' then some (c.toNat - '0'.toNat)
    else if 'a' ≤ c ∧ c ≤ 'f' then some (c.toNat - 'a'.toNat + 10)
    else if 'A' ≤ c ∧ c ≤ 'F' then some (c.toNat - 'A'.toNat + 10)
    else none
  match v with
  | some d => if d < base then some d else none
  | none => none

/-- Parse a non-empty run of digits in the given base (`none` on an
empty run or a foreign character). -/
def parseDigits (base : Nat) (cs : List Char) : Option Nat :=
  match cs with
  | [] => none
  | _ =>
    cs.foldl
      (fun acc c =>
        match acc, digitVal base c with
        | some n, some d => some (n * base + d)
        | _, _ => none)
      (some 0)

/-- The JS decimal-literal fragment of `Number(string)`: optional sign,
digits, optional fraction, optional exponent — kept only when the value
is exactly integral. Non-integral results (e.g. "1.5", "1e-1"), the
infinities, and the double rounding of enormous literals are not
representable in the integer model and coerce to `NaN` here; no theorem
below quantifies over such strings. -/
def parseDecNumber (cs : List Char) : Option Int :=
  let (neg, cs1) :=
    match cs with
    | '+' :: rest => (false, rest)
    | '-' :: rest => (true, rest)
    | _ => (false, cs)
  let intDigits := cs1.takeWhile Char.isDigit
  let cs2 := cs1.dropWhile Char.isDigit
  let (fracDigits, cs3) :=
    match cs2 with
    | '.' :: rest => (rest.takeWhile Char.isDigit, rest.dropWhile Char.isDigit)
    | _ => ([], cs2)
  let expPart : Option (Int × List Char) :=
    match cs3 with
    | 'e' :: rest | 'E' :: rest =>
      let (eneg, rest2) :=
        match rest with
        | '+' :: r => (false, r)
        | '-' :: r => (true, r)
        | _ => (false, rest)
      match parseDigits 10 (rest2.takeWhile Char.isDigit) with
      | some e =>
        if rest2.dropWhile Char.isDigit = [] then
          some ((if eneg then -(e : Int) else (e : Int)), [])
        else none
      | none => none
    | _ => some (0, cs3)
  match expPart with
  | none => none
  | some (e, rest) =>
    if rest = [] ∧ (intDigits ≠ [] ∨ fracDigits ≠ []) then
      match parseDigits 10 (intDigits ++ fracDigits) with
      | none => none
      | some m =>
        let f : Int := fracDigits.length
        let mv : Option Int :=
          if e ≥ f then some ((m : Int) * (10 : Int) ^ (e - f).toNat)
          else if (10 : Nat) ^ (f - e).toNat ∣ m then
            some ((m / (10 : Nat) ^ (f - e).toNat : Nat) : Int)
          else none
        match mv with
        | some x => some (if neg then -x else x)
        | none => none
    else none

/-- JS `Number(string)` on the integer-representable fragment: trimmed;
empty → 0; unsigned 0x/0o/0b integer literals; signed decimal literals
with fraction and exponent when exactly integral (so "1e3" → 1000,
"0x10" → 16, "+5" → 5, "2.0" → 2, while "1.5" falls outside the integer
model and is treated as `NaN`). -/
def parseJsNumber (s : String) : Option Int :=
  let t := s.trim
  if t = "" then some 0
  else
    match t.toList with
    | '0' :: c :: rest =>
      if c = 'x' ∨ c = 'X' then (parseDigits 16 rest).map Int.ofNat
      else if c = 'o' ∨ c = 'O' then (parseDigits 8 rest).map Int.ofNat
      else if c = 'b' ∨ c = 'B' then (parseDigits 2 rest).map Int.ofNat
      else parseDecNumber ('0' :: c :: rest)
    | cs => parseDecNumber cs

/-- JS `Number(x)` coercion as used by `Date.now() > item.expiry`;
`none` is `NaN`. Arrays follow the join-then-parse rule: `[]` joins to
the empty string (0), a singleton joins to its element's string — so a
boolean element yields `NaN`, a null element the empty string (0), and
numbers/strings/nested singletons their own coercion — and any longer
array joins with a comma (`NaN`); a plain object coerces to `NaN`. -/
def toNumberOpt : JsonVal → Option Int
  | .jnull => some 0
  | .jbool b => some (if b then 1 else 0)
  | .jnum n => some n
  | .jstr s => parseJsNumber s
  | .jarr [] => some 0
  | .jarr [.jbool _] => none
  | .jarr [x] => toNumberOpt x
  | .jarr (_ :: _ :: _) => none
  | .jobj _ => none

/-- `item.expiry && Date.now() > item.expiry` for a parsed non-`null`
item: truthy expiry field and numeric comparison (`NaN` compares
false). -/
def expiredAt (now : Int) (item : JsonVal) : Bool :=
  match expiryField item with
  | none => false
  | some e =>
    e.truthy &&
      (match toNumberOpt e with
       | some x => decide (now > x)
       | none => false)

/-- `item.data ?? item`: the data field unless it is `null` or
`undefined`, in which case the whole parsed item. -/
def resolveData (item : JsonVal) : JsonVal :=
  match dataField item with
  | none => item
  | some .jnull => item
  | some d => d

/-- Result of `get`: normal return, or a propagating stack-overflow
exception; both carry the backend state and the event trace produced so
far. -/
inductive GetRes where
  | ok : JsonVal → Backend → List Event → GetRes
  | err : Backend → List Event → GetRes

/-- Result of `remove`/`has`. -/
inductive BoolRes where
  | ok : Bool → Backend → List Event → BoolRes
  | err : Backend → List Event → BoolRes

namespace LocalStorage

/-- `LocalStorage.set(key, value, ttl)`. The payload is the already
resolved value (a function argument is invoked before the envelope is
built, so callers pass its result). Returns the success flag, the new
backend, and the emitted events: `writing` strictly before the write
attempt, then exactly one of `written`/`write-failed`; a backend throw
is absorbed. -/
def set (b : Backend) (k : String) (v : JsonVal) (ttl : Option Int)
    (now : Int) (dttl : Option Int) : Bool × Backend × List Event :=
  let e := computeExpiry (ttlOr ttl dttl) now
  match b.setItem k (.json (envelope v e)) with
  | some b2 => (true, b2, [.writing k v e, .written k v e])
  | none => (false, b, [.writing k v e, .writeFailed k v e])

mutual

/-- `LocalStorage.get(key, fallback)` with explicit stack fuel.
The fallback is the already resolved value (`null` by default). On an
expired entry the source calls `remove`, which re-enters `get` through
`has`; the cycle ends only when the stack overflows, and the resulting
exception is absorbed by this function's `try`/`catch`, which then
returns the raw stored string. -/
def get : Nat → Backend → String → JsonVal → Int → GetRes
  | 0, b, _, _, _ => .err b []
  | fuel + 1, b, k, fb, now =>
    let ev0 := [Event.retrieving k]
    match b.lookup k with
    | none => .ok fb b (ev0 ++ [.missed k])
    | some st =>
      match st with
      | .raw s =>
        -- JSON.parse throws: catch falls back to the raw string
        .ok (.jstr s) b (ev0 ++ [.hit k (.jstr s)])
      | .json item =>
        match item with
        | .jnull =>
          -- item.expiry on null throws a TypeError, caught the same way
          .ok (.jstr (stringify .jnull)) b
            (ev0 ++ [.hit k (.jstr (stringify .jnull))])
        | _ =>
          if expiredAt now item then
            match remove fuel b k now with
            | .ok _ b2 evs2 => .ok .jnull b2 (ev0 ++ evs2)
            | .err b2 evs2 =>
              -- stack overflow inside remove, caught by this try block
              .ok (.jstr (stringify item)) b2
                (ev0 ++ evs2 ++ [.hit k (.jstr (stringify item))])
          else
            let value := resolveData item
            .ok value b (ev0 ++ [.hit k value])

/-- `LocalStorage.remove(key)` with explicit stack fuel. -/
def remove : Nat → Backend → String → Int → BoolRes
  | 0, b, _, _ => .err b []
  | fuel + 1, b, k, now =>
    match has fuel b k now with
    | .err b2 evs2 => .err b2 evs2
    | .ok true b2 evs2 => .ok true (b2.removeItem k) (evs2 ++ [.forgotten k])
    | .ok false b2 evs2 => .ok false b2 (evs2 ++ [.forgotFailed k])

/-- `LocalStorage.has(key) = !!this.get(key)` with explicit stack
fuel. -/
def has : Nat → Backend → String → Int → BoolRes
  | 0, b, _, _ => .err b []
  | fuel + 1, b, k, now =>
    match get fuel b k .jnull now with
    | .err b2 evs2 => .err b2 evs2
    | .ok v b2 evs2 => .ok v.truthy b2 evs2

end

/-- Result of `remember`: the value, state, trace, and whether the
callback was invoked (it is invoked exactly when `set` runs, since `set`
resolves a function payload by calling it). -/
inductive RememberRes where
  | ok : JsonVal → Backend → List Event → Bool → RememberRes
  | err : Backend → List Event → RememberRes

/-- `LocalStorage.remember(key, callback, ttl)`; `cb` is the value the
callback would produce. -/
def remember (fuel : Nat) (b : Backend) (k : String) (cb : JsonVal)
    (ttl : Option Int) (now : Int) (dttl : Option Int) : RememberRes :=
  match get fuel b k .jnull now with
  | .err b1 ev1 => .err b1 ev1
  | .ok item b1 ev1 =>
    match item with
    | .jnull =>
      let s := set b1 k cb (ttlOr ttl dttl) now dttl
      match get fuel s.2.1 k .jnull now with
      | .err b3 ev3 => .err b3 (ev1 ++ s.2.2 ++ ev3)
      | .ok v2 b3 ev3 => .ok v2 b3 (ev1 ++ s.2.2 ++ ev3) true
    | _ => .ok item b1 ev1 false

/-- `LocalStorage.touch(key, ttl)`. -/
def touch (fuel : Nat) (b : Backend) (k : String) (ttl : Option Int)
    (now : Int) (dttl : Option Int) : BoolRes :=
  match get fuel b k .jnull now with
  | .err b1 ev1 => .err b1 ev1
  | .ok item b1 ev1 =>
    match item with
    | .jnull => .ok false b1 ev1
    | _ =>
      let s := set b1 k item (ttlOr ttl dttl) now dttl
      .ok s.1 s.2.1 (ev1 ++ s.2.2)

end LocalStorage

/-! String-level model of `LocalStorageFake` (the in-memory fake), from
`lib/main.umd.js`: own enumerable properties are the stored mapping,
`#used` caches the byte count, `#quota` is fixed at 5 MiB. -/

/-- `LocalStorageFake` state: stored key/string pairs in insertion
order, plus the `#used` byte counter. -/
structure LocalStorageFake where
  items : List (String × String)
  used : Nat

namespace LocalStorageFake

/-- `#quota`: 5 * 1024 * 1024 bytes. -/
def quotaBytes : Nat := 5 * 1024 * 1024

/-- `space()`: recomputed sum of `size(key, value)` over all stored
entries. -/
def spaceF (items : List (String × String)) : Nat :=
  (items.map (fun p => blobSize p.1 p.2)).foldr (· + ·) 0

/-- `exceeded(keyName, keyValue)`:
`size(keyName, keyValue) + #used > #quota`. -/
def exceeded (f : LocalStorageFake) (keyName keyValue : String) : Bool :=
  blobSize keyName keyValue + f.used > quotaBytes

/-- `setItem(keyName, keyValue)`: throws a `QuotaExceededError`
(`Except.error`) when `exceeded`, before any mutation; otherwise stores
the string and recomputes `#used`. -/
def setItem (f : LocalStorageFake) (keyName keyValue : String) :
    Except Unit LocalStorageFake :=
  if f.exceeded keyName keyValue then .error ()
  else .ok { items := setEntry f.items keyName keyValue,
             used := spaceF (setEntry f.items keyName keyValue) }

/-- `removeItem(keyName)`: deletes the key and recomputes `#used`. -/
def removeItem (f : LocalStorageFake) (keyName : String) :
    LocalStorageFake :=
  { items := removeEntry f.items keyName,
    used := spaceF (removeEntry f.items keyName) }

end LocalStorageFake

/-- A TTL option that is absent or non-negative (the regime in which a
freshly written entry is not instantly expired). -/
def ttlNonneg : Option Int → Prop
  | none => True
  | some t => 0 ≤ t

/-- The parsed value's data field is JS-nullish (absent or null) — the
case in which `item.data ?? item` falls back to the whole item. -/
def dataNullish (v : JsonVal) : Bool :=
  match dataField v with
  | none => true
  | some .jnull => true
  | some _ => false

/-- The expiry field of a parsed value is absent, null, or a number —
the only shapes the engine itself ever writes, and the shapes on which
the modelled numeric coercion coincides exactly with the source's
`Date.now() > item.expiry`. -/
def expiryIntOrAbsent (v : JsonVal) : Bool :=
  match expiryField v with
  | none => true
  | some .jnull => true
  | some (.jnum _) => true
  | some _ => false

/-! Basic lemmas about the association-list primitives. -/

theorem lookupEntry_setEntry {α : Type} (xs : List (String × α)) (k k2 : String)
    (v : α) :
    lookupEntry (setEntry xs k v) k2 =
      if k = k2 then some v else lookupEntry xs k2 := by
  induction xs with
  | nil =>
    by_cases h : k = k2 <;> simp [setEntry, lookupEntry, h]
  | cons p rest ih =>
    obtain ⟨k', v'⟩ := p
    by_cases h1 : k' = k
    · subst h1
      by_cases h2 : k' = k2 <;> simp [setEntry, lookupEntry, h2]
    · by_cases h2 : k' = k2
      · have hk : ¬k = k2 := fun h => h1 (h2.trans h.symm)
        have hk2 : ¬k2 = k := fun h => hk h.symm
        simp [setEntry, lookupEntry, h1, h2, hk, hk2]
      · simp [setEntry, lookupEntry, h1, h2, ih]

theorem lookupEntry_removeEntry {α : Type} (xs : List (String × α))
    (k k2 : String) :
    lookupEntry (removeEntry xs k) k2 =
      if k = k2 then none else lookupEntry xs k2 := by
  induction xs with
  | nil => by_cases h : k = k2 <;> simp [removeEntry, lookupEntry, h]
  | cons p rest ih =>
    obtain ⟨k', v'⟩ := p
    by_cases h1 : k' = k
    · subst h1
      by_cases h2 : k' = k2
      · have hk : k' = k2 := h2
        subst hk
        simpa [removeEntry, lookupEntry] using ih
      · simp [removeEntry, lookupEntry, h2, ih]
    · by_cases h2 : k' = k2
      · have hk : ¬k = k2 := fun h => h1 (h2.trans h.symm)
        have hk2 : ¬k2 = k := fun h => hk h.symm
        simp [removeEntry, lookupEntry, h1, h2, hk, hk2]
      · simp [removeEntry, lookupEntry, h1, h2, ih]

/-! Lemmas about the serialized envelope. -/

theorem dataField_envelope (v : JsonVal) (e : Option Int) :
    dataField (envelope v e) = some v := by
  simp [dataField, envelope, lookupEntry]

theorem expiryField_envelope (v : JsonVal) (e : Option Int) :
    expiryField (envelope v e) = some (expiryJson e) := by
  simp [expiryField, envelope, lookupEntry]

theorem resolveData_envelope (v : JsonVal) (e : Option Int)
    (hv : v.isNull = false) : resolveData (envelope v e) = v := by
  cases v <;> simp_all [JsonVal.isNull, resolveData, dataField_envelope]

theorem resolveData_envelope_null (e : Option Int) :
    resolveData (envelope .jnull e) = envelope .jnull e := by
  simp [resolveData, dataField_envelope]

theorem expiredAt_envelope_none (now : Int) (v : JsonVal) :
    expiredAt now (envelope v none) = false := by
  simp [expiredAt, expiryField_envelope, expiryJson, JsonVal.truthy]

theorem expiredAt_envelope_some (now : Int) (v : JsonVal) (x : Int) :
    expiredAt now (envelope v (some x)) =
      ((x != 0) && decide (now > x)) := by
  rw [expiredAt, expiryField_envelope]
  rfl

theorem envelope_not_isNull (v : JsonVal) (e : Option Int) :
    (envelope v e).isNull = false := rfl

/-- Truthiness of the value that a read of a freshly written envelope
resolves to: a null payload resolves to the (truthy) envelope object,
any other payload to itself. -/
theorem truthy_resolveData_envelope (v : JsonVal) (e : Option Int) :
    (resolveData (envelope v e)).truthy = (v.isNull || v.truthy) := by
  cases v <;>
    first
      | (rw [resolveData_envelope_null]; rfl)
      | simp [resolveData_envelope, JsonVal.isNull, JsonVal.truthy]

/-- A write with an absent or non-negative TTL is not expired at the
moment of writing. -/
theorem expiredAt_computeExpiry_nonneg (now : Int) (v : JsonVal)
    (t : Option Int) (h : ttlNonneg t) :
    expiredAt now (envelope v (computeExpiry t now)) = false := by
  cases t with
  | none => exact expiredAt_envelope_none now v
  | some x =>
    by_cases hx : x = 0
    · simp [computeExpiry, hx, expiredAt_envelope_none]
    · have hx0 : (0 : Int) ≤ x := h
      rw [computeExpiry]
      simp only [hx, if_false]
      rw [expiredAt_envelope_some]
      have : ¬(now > now + x * 1000) := by
        have : 0 ≤ x * 1000 := by positivity
        omega
      simp [this]

/-- When the data field is nullish, `item.data ?? item` yields the whole
item. -/
theorem resolveData_of_dataNullish (v : JsonVal)
    (h : dataNullish v = true) : resolveData v = v := by
  unfold resolveData
  unfold dataNullish at h
  cases hd : dataField v with
  | none => rfl
  | some d =>
    rw [hd] at h
    cases d <;> simp_all

/-- Only a parsed object can satisfy the expiry check (every other
value's `expiry` read is `undefined`, hence falsy). -/
theorem expiredAt_isObj {now : Int} {item : JsonVal}
    (h : expiredAt now item = true) : ∃ fs, item = .jobj fs := by
  cases item <;> simp_all [expiredAt, expiryField]

/-- The serialized text of an object is never the empty string. -/
theorem stringify_jobj_ne_empty (fs : List (String × JsonVal)) :
    stringify (.jobj fs) ≠ "" := by
  intro h
  have h1 := congrArg String.length h
  rw [stringify] at h1
  rw [String.length_append, String.length_append] at h1
  have h2 : ("\x7b" : String).length = 1 := rfl
  have h3 : ("\x7d" : String).length = 1 := rfl
  have h4 : ("" : String).length = 0 := rfl
  omega

/-! Behaviour of the engine operations. -/

namespace LocalStorage

theorem setItem_ok {b b2 : Backend} {k : String} {st : Stored}
    (h : b.setItem k st = some b2) :
    b2 = { b with items := setEntry b.items k st } := by
  unfold Backend.setItem at h
  cases hq : b.quota with
  | none => rw [hq] at h; exact (Option.some_injective _ h).symm
  | some q =>
    rw [hq] at h
    by_cases hx : blobSize k (storedText st) + spaceOf b.items > q
    · simp [hx] at h
    · simp [hx] at h
      exact h.symm

/-- A backend without quota accepts every write. -/
theorem set_quota_none (b : Backend) (k : String) (v : JsonVal)
    (ttl : Option Int) (now : Int) (dttl : Option Int)
    (hq : b.quota = none) :
    set b k v ttl now dttl =
      (true,
       { items := setEntry b.items k
           (.json (envelope v (computeExpiry (ttlOr ttl dttl) now))),
         quota := none },
       [Event.writing k v (computeExpiry (ttlOr ttl dttl) now),
        Event.written k v (computeExpiry (ttlOr ttl dttl) now)]) := by
  obtain ⟨items, quota⟩ := b
  cases hq
  rfl

theorem get_absent (fuel : Nat) (b : Backend) (k : String) (fb : JsonVal)
    (now : Int) (h : b.lookup k = none) :
    get (fuel + 1) b k fb now = .ok fb b [.retrieving k, .missed k] := by
  unfold get
  rw [h]
  rfl

/-- A present, unexpired, non-`null` parsed entry: plain hit, no
mutation. -/
theorem get_present (fuel : Nat) (b : Backend) (k : String) (fb : JsonVal)
    (now : Int) (item : JsonVal) (h : b.lookup k = some (.json item))
    (hnn : item.isNull = false) (hexp : expiredAt now item = false) :
    get (fuel + 1) b k fb now =
      .ok (resolveData item) b [.retrieving k, .hit k (resolveData item)] := by
  unfold get
  rw [h]
  cases item <;> simp_all [JsonVal.isNull]

/-- A raw (unparsable) entry: the raw string is returned unchanged. -/
theorem get_raw (fuel : Nat) (b : Backend) (k : String) (fb : JsonVal)
    (now : Int) (s : String) (h : b.lookup k = some (.raw s)) :
    get (fuel + 1) b k fb now =
      .ok (.jstr s) b [.retrieving k, .hit k (.jstr s)] := by
  unfold get
  rw [h]
  rfl

/-- With stack budget 1–3 the expired-entry cycle overflows before the
inner `remove` can delete anything: the caught overflow degrades `get`
to returning the raw serialized string, leaving the entry in place. -/
theorem get_expired_small (fuel : Nat) (b : Backend) (k : String)
    (now : Int) (item : JsonVal) (h : b.lookup k = some (.json item))
    (hnn : item.isNull = false) (hexp : expiredAt now item = true)
    (h1 : 1 ≤ fuel) (h3 : fuel ≤ 3) :
    get fuel b k .jnull now =
      .ok (.jstr (stringify item)) b
        [.retrieving k, .hit k (.jstr (stringify item))] := by
  interval_cases fuel <;>
    · unfold get
      rw [h]
      cases item <;> simp_all [JsonVal.isNull] <;> rfl

/-- With stack budget at least 4 the expired-entry cycle bottoms out in
a caught overflow whose raw-string result is truthy, so the innermost
live `remove` deletes the entry and the outer `get` returns `null` with
the entry gone. -/
theorem get_expired_ge4 (fuel : Nat) (b : Backend) (k : String)
    (now : Int) (item : JsonVal) (h : b.lookup k = some (.json item))
    (hnn : item.isNull = false) (hexp : expiredAt now item = true)
    (h4 : 4 ≤ fuel) :
    ∃ evs, get fuel b k .jnull now = .ok .jnull (b.removeItem k) evs := by
  induction fuel using Nat.strong_induction_on with
  | _ fuel ih =>
    obtain ⟨m, rfl⟩ : ∃ m, fuel = m + 4 := ⟨fuel - 4, by omega⟩
    obtain ⟨fs, rfl⟩ := expiredAt_isObj hexp
    by_cases hm : m + 1 ≤ 3
    · -- inner get runs with fuel 1..3: overflow caught, raw string truthy
      have hinner := get_expired_small (m + 1) b k now (.jobj fs) h hnn hexp
        (by omega) hm
      have hhas : has (m + 2) b k now =
          .ok true b [.retrieving k, .hit k (.jstr (stringify (.jobj fs)))] := by
        show has (m + 1 + 1) b k now = _
        unfold has
        rw [hinner]
        have ht : (JsonVal.jstr (stringify (.jobj fs))).truthy = true := by
          simp [JsonVal.truthy, stringify_jobj_ne_empty fs]
        simp [ht]
      have hrem : remove (m + 3) b k now =
          .ok true (b.removeItem k)
            ([.retrieving k, .hit k (.jstr (stringify (.jobj fs)))] ++
              [.forgotten k]) := by
        show remove (m + 2 + 1) b k now = _
        unfold remove
        rw [hhas]
      refine ⟨[Event.retrieving k] ++
        ([.retrieving k, .hit k (.jstr (stringify (.jobj fs)))] ++
          [.forgotten k]), ?_⟩
      show get (m + 3 + 1) b k .jnull now = _
      unfold get
      rw [h]
      simp only [hexp, if_true]
      rw [hrem]
    · -- inner get runs with fuel ≥ 4: entry already deleted below
      obtain ⟨evs, hinner⟩ := ih (m + 1) (by omega) (by omega)
      have hhas : has (m + 2) b k now = .ok false (b.removeItem k) evs := by
        show has (m + 1 + 1) b k now = _
        unfold has
        rw [hinner]
        rfl
      have hrem : remove (m + 3) b k now =
          .ok false (b.removeItem k) (evs ++ [.forgotFailed k]) := by
        show remove (m + 2 + 1) b k now = _
        unfold remove
        rw [hhas]
      refine ⟨[Event.retrieving k] ++ (evs ++ [.forgotFailed k]), ?_⟩
      show get (m + 3 + 1) b k .jnull now = _
      unfold get
      rw [h]
      simp only [hexp, if_true]
      rw [hrem]

end LocalStorage

/-! Lemmas for the string-level fake backend. -/

namespace LocalStorageFake

end LocalStorageFake

open LocalStorage

/-- C1 counterexample: at the degenerate instant where the computed
expiry `now + ttl * 1000` is exactly zero, the stored expiry `0` is
falsy in `item.expiry && Date.now() > item.expiry`, so the entry never
expires — `get` returns the stored value and removes nothing,
falsifying the claim for a negative TTL it quantifies over. -/
theorem c1_zero_expiry_counterexample :
    (LocalStorage.set ⟨[], none⟩ "k" (.jstr "v") (some (-60)) 60000
        none).2.1.lookup "k" =
      some (.json (envelope (.jstr "v") (some 0))) ∧
    get 5 (LocalStorage.set ⟨[], none⟩ "k" (.jstr "v") (some (-60)) 60000
        none).2.1 "k" .jnull 999999999 =
      .ok (.jstr "v")
        (LocalStorage.set ⟨[], none⟩ "k" (.jstr "v") (some (-60)) 60000
          none).2.1
        [.retrieving "k", .hit "k" (.jstr "v")] ∧
    JsonVal.jstr "v" ≠ .jnull :=
  ⟨rfl, rfl, fun h => JsonVal.noConfusion h⟩

/-- C1 amended: for all keys, values, and negative TTLs whose computed
expiry `now + ttl * 1000` is nonzero, a write followed by a read
returns null and physically removes the backing entry; at the single
degenerate instant where it is zero, the stored expiry is falsy, the
entry never expires, and `get` returns the stored value instead. Side
conditions of the model: a quota-free backend (the write itself
succeeds), the read happens at or after the write, and the stack budget
suffices for the expiry-removal cycle to bottom out (any real JS stack
does). -/
theorem c1_negative_ttl_get_null (b : Backend) (k : String) (v : JsonVal)
    (ttl now now2 : Int) (dttl : Option Int) (fuel : Nat)
    (hq : b.quota = none) (ht : ttl < 0) (hez : now + ttl * 1000 ≠ 0)
    (hn : now ≤ now2) (hf : 4 ≤ fuel) :
    ∃ evs,
      get fuel (set b k v (some ttl) now dttl).2.1 k .jnull now2 =
        .ok .jnull ((set b k v (some ttl) now dttl).2.1.removeItem k) evs ∧
      ((set b k v (some ttl) now dttl).2.1.removeItem k).lookup k = none := by
  have hset := set_quota_none b k v (some ttl) now dttl hq
  have hexpv : computeExpiry (ttlOr (some ttl) dttl) now =
      some (now + ttl * 1000) := by
    simp [ttlOr, computeExpiry]
    omega
  set b1 := (set b k v (some ttl) now dttl).2.1 with hb1
  have hb1items : b1 =
      Backend.mk
        (setEntry b.items k (.json (envelope v (some (now + ttl * 1000)))))
        none := by
    rw [hb1, hset, hexpv]
  have hlook : b1.lookup k =
      some (.json (envelope v (some (now + ttl * 1000)))) := by
    rw [hb1items]
    show lookupEntry (setEntry b.items k _) k = _
    rw [lookupEntry_setEntry]
    simp
  have hpast : now + ttl * 1000 < now2 := by
    have h1 : ttl ≤ -1 := by omega
    have h2 : ttl * 1000 ≤ -1 * 1000 :=
      mul_le_mul_of_nonneg_right h1 (by norm_num)
    omega
  have hexp : expiredAt now2 (envelope v (some (now + ttl * 1000))) = true := by
    rw [expiredAt_envelope_some]
    have hne : (now + ttl * 1000 != 0) = true := by
      simp only [bne_iff_ne, ne_eq]
      omega
    rw [hne]
    simpa using hpast
  obtain ⟨evs, hget⟩ := get_expired_ge4 fuel b1 k now2
    (envelope v (some (now + ttl * 1000))) hlook
    (envelope_not_isNull v _) hexp hf
  refine ⟨evs, hget, ?_⟩
  show lookupEntry (removeEntry b1.items k) k = none
  rw [lookupEntry_removeEntry]
  simp

/-- C1 witness: a concrete run of the negative-TTL write/read pair. -/
theorem c1_negative_ttl_get_null_witness :
    ((Backend.mk [] none).quota = none) ∧ ((-60 : Int) < 0) ∧
    ((100000 : Int) + (-60) * 1000 ≠ 0) ∧ ((100000 : Int) ≤ 100000) ∧
    (4 ≤ 4) ∧
    (∃ evs,
      get 4 (set ⟨[], none⟩ "k" (.jstr "v") (some (-60)) 100000 none).2.1
          "k" .jnull 100000 =
        .ok .jnull
          ((set ⟨[], none⟩ "k" (.jstr "v") (some (-60)) 100000 none).2.1.removeItem
            "k") evs ∧
      ((set ⟨[], none⟩ "k" (.jstr "v") (some (-60)) 100000
          none).2.1.removeItem "k").lookup "k" = none) :=
  ⟨rfl, by decide, by decide, by decide, by decide,
    c1_negative_ttl_get_null ⟨[], none⟩ "k" (.jstr "v") (-60) 100000 100000
      none 4 rfl (by decide) (by decide) (by decide) (by decide)⟩

/-- C2 counterexample: a TTL of exactly zero is falsy in the source
(`ttl ? ... : null`), so the stored expiry is null — not a past
timestamp — and a later get returns the stored value, not null. -/
theorem c2_zero_ttl_counterexample :
    (set ⟨[], none⟩ "k" (.jstr "v") (some 0) 100000 none).2.1.lookup "k" =
      some (.json (envelope (.jstr "v") none)) ∧
    get 5 (set ⟨[], none⟩ "k" (.jstr "v") (some 0) 100000 none).2.1
        "k" .jnull 100000000000 =
      .ok (.jstr "v") (set ⟨[], none⟩ "k" (.jstr "v") (some 0) 100000 none).2.1
        [.retrieving "k", .hit "k" (.jstr "v")] ∧
    JsonVal.jstr "v" ≠ .jnull :=
  ⟨rfl, rfl, fun h => JsonVal.noConfusion h⟩

/-- C2 amended: a TTL of exactly zero stores a null expiry — the entry
never expires — and a subsequent get (at any later time) returns the
stored payload; only nonzero (negative) TTLs produce a past expiry. -/
theorem c2_zero_ttl_amended (b : Backend) (k : String) (v : JsonVal)
    (now now2 : Int) (dttl : Option Int) (fuel : Nat)
    (hq : b.quota = none) (hv : v.isNull = false) :
    (set b k v (some 0) now dttl).2.1.lookup k =
      some (.json (envelope v none)) ∧
    get (fuel + 1) (set b k v (some 0) now dttl).2.1 k .jnull now2 =
      .ok v (set b k v (some 0) now dttl).2.1
        [.retrieving k, .hit k v] := by
  have hset := set_quota_none b k v (some 0) now dttl hq
  have hexpv : computeExpiry (ttlOr (some 0) dttl) now = none := by
    simp [ttlOr, computeExpiry]
  set b1 := (set b k v (some 0) now dttl).2.1 with hb1
  have hb1items : b1 =
      Backend.mk (setEntry b.items k (.json (envelope v none))) none := by
    rw [hb1, hset, hexpv]
  have hlook : b1.lookup k = some (.json (envelope v none)) := by
    rw [hb1items]
    show lookupEntry (setEntry b.items k _) k = _
    rw [lookupEntry_setEntry]
    simp
  refine ⟨hlook, ?_⟩
  have hres := get_present fuel b1 k .jnull now2 (envelope v none) hlook
    (envelope_not_isNull v none) (expiredAt_envelope_none now2 v)
  rw [hres, resolveData_envelope v none hv]

/-- C2 amended witness. -/
theorem c2_zero_ttl_amended_witness :
    ((Backend.mk [] none).quota = none) ∧
    ((JsonVal.jstr "v").isNull = false) ∧
    ((set ⟨[], none⟩ "k" (.jstr "v") (some 0) 100000 none).2.1.lookup "k" =
      some (.json (envelope (.jstr "v") none)) ∧
    get 6 (set ⟨[], none⟩ "k" (.jstr "v") (some 0) 100000 none).2.1
        "k" .jnull 200000 =
      .ok (.jstr "v")
        (set ⟨[], none⟩ "k" (.jstr "v") (some 0) 100000 none).2.1
        [.retrieving "k", .hit "k" (.jstr "v")]) :=
  ⟨rfl, rfl,
    c2_zero_ttl_amended ⟨[], none⟩ "k" (.jstr "v") 100000 200000 none 5
      rfl rfl⟩

/-- C3: every call to set emits "writing" before the write is attempted,
then exactly one of "written" (returning true, state updated) or
"write-failed" (returning false, state untouched) — never both, never
neither — and a backend throw is absorbed (set is a total function
returning normally in both cases). -/
theorem c3_set_event_protocol (b : Backend) (k : String) (v : JsonVal)
    (ttl : Option Int) (now : Int) (dttl : Option Int) :
    ∃ r : Bool,
      set b k v ttl now dttl =
        (r,
         cond r
           { items := setEntry b.items k
               (.json (envelope v (computeExpiry (ttlOr ttl dttl) now))),
             quota := b.quota }
           b,
         [Event.writing k v (computeExpiry (ttlOr ttl dttl) now),
          cond r
            (Event.written k v (computeExpiry (ttlOr ttl dttl) now))
            (Event.writeFailed k v (computeExpiry (ttlOr ttl dttl) now))]) := by
  cases hs : b.setItem k (.json (envelope v (computeExpiry (ttlOr ttl dttl) now))) with
  | none =>
    refine ⟨false, ?_⟩
    simp only [LocalStorage.set, hs]
    rfl
  | some b2 =>
    refine ⟨true, ?_⟩
    have hb := setItem_ok hs
    subst hb
    simp only [LocalStorage.set, hs]
    rfl

/-- Resolving the per-call TTL twice against the same default is
idempotent (remember and touch pass the already resolved TTL into set,
which resolves it again). -/
theorem ttlOr_idem (ttl dttl : Option Int) :
    ttlOr (ttlOr ttl dttl) dttl = ttlOr ttl dttl := by
  cases ttl <;> cases dttl <;> rfl

/-- C5 counterexample: storing the payload null round-trips to the
whole envelope object (since `item.data ?? item` falls back to the
item), not to null — so the round-trip law fails at v = null. -/
theorem c5_null_roundtrip_counterexample :
    get 5 (LocalStorage.set ⟨[], none⟩ "k" .jnull none 100000 none).2.1
        "k" .jnull 100000 =
      .ok (envelope .jnull none)
        (LocalStorage.set ⟨[], none⟩ "k" .jnull none 100000 none).2.1
        [.retrieving "k", .hit "k" (envelope .jnull none)] ∧
    envelope .jnull none ≠ .jnull :=
  ⟨rfl, fun h => JsonVal.noConfusion h⟩

/-- C5 amended: for every non-null value, set with no TTL and no default
TTL followed immediately by get returns the value unchanged. -/
theorem c5_roundtrip_amended (b : Backend) (k : String) (v : JsonVal)
    (now now2 : Int) (fuel : Nat) (hq : b.quota = none)
    (hv : v.isNull = false) :
    get (fuel + 1) (LocalStorage.set b k v none now none).2.1 k .jnull now2 =
      .ok v (LocalStorage.set b k v none now none).2.1
        [.retrieving k, .hit k v] := by
  have hset := set_quota_none b k v none now none hq
  set b1 := (LocalStorage.set b k v none now none).2.1 with hb1
  have hb1items : b1 =
      Backend.mk (setEntry b.items k (.json (envelope v none))) none := by
    rw [hb1, hset]
    rfl
  have hlook : b1.lookup k = some (.json (envelope v none)) := by
    rw [hb1items]
    show lookupEntry (setEntry b.items k _) k = _
    rw [lookupEntry_setEntry]
    simp
  have hres := get_present fuel b1 k .jnull now2 (envelope v none) hlook
    (envelope_not_isNull v none) (expiredAt_envelope_none now2 v)
  rw [hres, resolveData_envelope v none hv]

/-- C5 amended witness. -/
theorem c5_roundtrip_amended_witness :
    ((Backend.mk [] none).quota = none) ∧
    ((JsonVal.jstr "v").isNull = false) ∧
    get 6 (LocalStorage.set ⟨[], none⟩ "k" (.jstr "v") none 100000
        none).2.1 "k" .jnull 200000 =
      .ok (.jstr "v")
        (LocalStorage.set ⟨[], none⟩ "k" (.jstr "v") none 100000 none).2.1
        [.retrieving "k", .hit "k" (.jstr "v")] :=
  ⟨rfl, rfl,
    c5_roundtrip_amended ⟨[], none⟩ "k" (.jstr "v") 100000 200000 5 rfl rfl⟩

/-- C6 counterexample: the claim counts a stored null payload as "not
present", but has returns true for it — get resolves the entry to the
truthy envelope object. -/
theorem c6_null_payload_counterexample :
    has 5 (LocalStorage.set ⟨[], none⟩ "k" .jnull none 100000 none).2.1
        "k" 100000 =
      .ok true (LocalStorage.set ⟨[], none⟩ "k" .jnull none 100000 none).2.1
        [.retrieving "k", .hit "k" (envelope .jnull none)] := rfl

/-- C6 amended: has(key) is the truthiness of get(key) — absent,
expired, empty-string, zero and false payloads count as not present,
but a stored null payload counts as present (get returns the truthy
envelope object); remove returns true and emits "forgotten" exactly
when has was true (deleting the entry), otherwise returns false and
emits "forgot-failed" — and in the failure case the mapping is
untouched for absent keys, but an expired entry has already been
physically pruned by the nested get. -/
theorem c6_has_remove_amended (b : Backend) (k : String) (v : JsonVal)
    (now : Int) (fuel : Nat) (hq : b.quota = none) (hf : 4 ≤ fuel)
    (hpos : 60000 < now) :
    (∀ (f2 : Nat) (c : Backend) (k2 : String) (t2 : Int),
      remove (f2 + 1) c k2 t2 =
        match has f2 c k2 t2 with
        | .err b2 evs2 => .err b2 evs2
        | .ok r b2 evs2 =>
          .ok r (cond r (b2.removeItem k2) b2)
            (evs2 ++ [cond r (Event.forgotten k2) (Event.forgotFailed k2)])) ∧
    (has (fuel + 1) (LocalStorage.set b k v none now none).2.1 k now =
      .ok (v.isNull || v.truthy)
        (LocalStorage.set b k v none now none).2.1
        [.retrieving k, .hit k (resolveData (envelope v none))]) ∧
    (∀ k2 : String,
      has (fuel + 1) (Backend.mk [] none) k2 now =
        .ok false ⟨[], none⟩ [.retrieving k2, .missed k2] ∧
      remove (fuel + 2) (Backend.mk [] none) k2 now =
        .ok false ⟨[], none⟩
          [.retrieving k2, .missed k2, .forgotFailed k2]) ∧
    (∃ evs,
      remove (fuel + 2)
          (LocalStorage.set b k v (some (-60)) now none).2.1 k now =
        .ok false
          ((LocalStorage.set b k v (some (-60)) now none).2.1.removeItem k)
          evs ∧
      ((LocalStorage.set b k v (some (-60)) now
          none).2.1.removeItem k).lookup k = none) := by
  obtain ⟨fp, rfl⟩ : ∃ fp, fuel = fp + 1 := ⟨fuel - 1, by omega⟩
  refine ⟨?_, ?_, ?_, ?_⟩
  · intro f2 c k2 t2
    unfold remove
    cases h : has f2 c k2 t2 with
    | err b2 evs2 => rfl
    | ok r b2 evs2 => cases r <;> rfl
  · have hset := set_quota_none b k v none now none hq
    set b1 := (LocalStorage.set b k v none now none).2.1 with hb1
    have hb1items : b1 =
        Backend.mk (setEntry b.items k (.json (envelope v none))) none := by
      rw [hb1, hset]
      rfl
    have hlook : b1.lookup k = some (.json (envelope v none)) := by
      rw [hb1items]
      show lookupEntry (setEntry b.items k _) k = _
      rw [lookupEntry_setEntry]
      simp
    have hg := get_present fp b1 k .jnull now (envelope v none) hlook
      (envelope_not_isNull v none) (expiredAt_envelope_none now v)
    show has (fp + 1 + 1) b1 k now = _
    unfold has
    rw [hg]
    show BoolRes.ok (resolveData (envelope v none)).truthy b1
      [Event.retrieving k, Event.hit k (resolveData (envelope v none))] = _
    rw [truthy_resolveData_envelope]
  · intro k2
    have habs : (Backend.mk [] none : Backend).lookup k2 = none := rfl
    have hg := get_absent fp ⟨[], none⟩ k2 .jnull now habs
    constructor
    · show has (fp + 1 + 1) (Backend.mk [] none) k2 now = _
      unfold has
      rw [hg]
      rfl
    · show remove (fp + 1 + 1 + 1) (Backend.mk [] none) k2 now = _
      unfold remove
      have hh : has (fp + 1 + 1) (Backend.mk [] none) k2 now =
          .ok false ⟨[], none⟩ [.retrieving k2, .missed k2] := by
        unfold has
        rw [hg]
        rfl
      rw [hh]
      rfl
  · have hset := set_quota_none b k v (some (-60)) now none hq
    set b2 := (LocalStorage.set b k v (some (-60)) now none).2.1 with hb2
    have he : computeExpiry (ttlOr (some (-60)) none) now =
        some (now + (-60) * 1000) := by
      simp [ttlOr, computeExpiry]
    have hb2items : b2 =
        Backend.mk
          (setEntry b.items k (.json (envelope v (some (now + (-60) * 1000)))))
          none := by
      rw [hb2, hset, he]
    have hlook : b2.lookup k =
        some (.json (envelope v (some (now + (-60) * 1000)))) := by
      rw [hb2items]
      show lookupEntry (setEntry b.items k _) k = _
      rw [lookupEntry_setEntry]
      simp
    have hexp : expiredAt now (envelope v (some (now + (-60) * 1000))) =
        true := by
      rw [expiredAt_envelope_some]
      have h1 : (now + (-60) * 1000 != 0) = true := by
        simp only [bne_iff_ne, ne_eq]
        omega
      have h2 : decide (now > now + (-60) * 1000) = true := by
        simp only [decide_eq_true_eq]
        omega
      rw [h1, h2]
      rfl
    obtain ⟨evs, hget⟩ := get_expired_ge4 (fp + 1) b2 k now
      (envelope v (some (now + (-60) * 1000))) hlook
      (envelope_not_isNull v _) hexp hf
    refine ⟨evs ++ [.forgotFailed k], ?_, ?_⟩
    · show remove (fp + 1 + 1 + 1) b2 k now = _
      unfold remove
      have hh : has (fp + 1 + 1) b2 k now =
          .ok false (b2.removeItem k) evs := by
        unfold has
        rw [hget]
        rfl
      rw [hh]
    · show lookupEntry (removeEntry b2.items k) k = none
      rw [lookupEntry_removeEntry]
      simp

/-- C6 amended witness. -/
theorem c6_has_remove_amended_witness :
    ((Backend.mk [] none).quota = none) ∧ (4 ≤ 4) ∧
    ((60000 : Int) < 100000) ∧
    ((∀ (f2 : Nat) (c : Backend) (k2 : String) (t2 : Int),
      remove (f2 + 1) c k2 t2 =
        match has f2 c k2 t2 with
        | .err b2 evs2 => .err b2 evs2
        | .ok r b2 evs2 =>
          .ok r (cond r (b2.removeItem k2) b2)
            (evs2 ++ [cond r (Event.forgotten k2) (Event.forgotFailed k2)])) ∧
    (has 5 (LocalStorage.set ⟨[], none⟩ "k" (.jstr "v") none 100000
        none).2.1 "k" 100000 =
      .ok ((JsonVal.jstr "v").isNull || (JsonVal.jstr "v").truthy)
        (LocalStorage.set ⟨[], none⟩ "k" (.jstr "v") none 100000 none).2.1
        [.retrieving "k", .hit "k" (resolveData (envelope (.jstr "v") none))]) ∧
    (∀ k2 : String,
      has 5 (Backend.mk [] none) k2 100000 =
        .ok false ⟨[], none⟩ [.retrieving k2, .missed k2] ∧
      remove 6 (Backend.mk [] none) k2 100000 =
        .ok false ⟨[], none⟩
          [.retrieving k2, .missed k2, .forgotFailed k2]) ∧
    (∃ evs,
      remove 6
          (LocalStorage.set ⟨[], none⟩ "k" (.jstr "v") (some (-60)) 100000
            none).2.1 "k" 100000 =
        .ok false
          ((LocalStorage.set ⟨[], none⟩ "k" (.jstr "v") (some (-60)) 100000
            none).2.1.removeItem "k")
          evs ∧
      ((LocalStorage.set ⟨[], none⟩ "k" (.jstr "v") (some (-60)) 100000
          none).2.1.removeItem "k").lookup "k" = none)) :=
  ⟨rfl, by decide, by decide,
    c6_has_remove_amended ⟨[], none⟩ "k" (.jstr "v") 100000 4 rfl
      (by decide) (by decide)⟩

/-- C7 counterexample: a callback producing null is invoked and its
result stored, but remember returns the envelope object (the stored
null read back through the data-fallback), not the callback result. -/
theorem c7_null_callback_counterexample :
    remember 5 ⟨[], none⟩ "k" .jnull none 100000 none =
      .ok (envelope .jnull none)
        (Backend.mk [("k", .json (envelope .jnull none))] none)
        [.retrieving "k", .missed "k", .writing "k" .jnull none,
         .written "k" .jnull none, .retrieving "k",
         .hit "k" (envelope .jnull none)] true ∧
    envelope .jnull none ≠ .jnull :=
  ⟨rfl, fun h => JsonVal.noConfusion h⟩

/-- C7 amended: on a missing key, remember invokes the callback exactly
once, performs exactly one set, and returns the read-back of the stored
envelope — equal to the callback result whenever that result is
non-null (a null result reads back as the envelope object); a second
remember returns the same value without invoking its callback and
without writing, as long as the effective TTL is absent or
non-negative. -/
theorem c7_remember_amended (b : Backend) (k : String) (cb cb2 : JsonVal)
    (ttl : Option Int) (now : Int) (dttl : Option Int) (fuel : Nat)
    (hq : b.quota = none) (hk : b.lookup k = none) (hf : 1 ≤ fuel)
    (ht : ttlNonneg (ttlOr ttl dttl)) :
    remember fuel b k cb ttl now dttl =
      .ok (resolveData (envelope cb (computeExpiry (ttlOr ttl dttl) now)))
        (Backend.mk (setEntry b.items k
          (.json (envelope cb (computeExpiry (ttlOr ttl dttl) now)))) none)
        [.retrieving k, .missed k,
         .writing k cb (computeExpiry (ttlOr ttl dttl) now),
         .written k cb (computeExpiry (ttlOr ttl dttl) now),
         .retrieving k,
         .hit k (resolveData (envelope cb (computeExpiry (ttlOr ttl dttl) now)))]
        true ∧
    remember fuel
        (Backend.mk (setEntry b.items k
          (.json (envelope cb (computeExpiry (ttlOr ttl dttl) now)))) none)
        k cb2 ttl now dttl =
      .ok (resolveData (envelope cb (computeExpiry (ttlOr ttl dttl) now)))
        (Backend.mk (setEntry b.items k
          (.json (envelope cb (computeExpiry (ttlOr ttl dttl) now)))) none)
        [.retrieving k,
         .hit k (resolveData (envelope cb (computeExpiry (ttlOr ttl dttl) now)))]
        false ∧
    resolveData (envelope cb (computeExpiry (ttlOr ttl dttl) now)) =
      cond cb.isNull (envelope cb (computeExpiry (ttlOr ttl dttl) now)) cb := by
  obtain ⟨fp, rfl⟩ : ∃ fp, fuel = fp + 1 := ⟨fuel - 1, by omega⟩
  set e := computeExpiry (ttlOr ttl dttl) now with hedef
  set b2 := Backend.mk (setEntry b.items k (.json (envelope cb e))) none
    with hb2
  have hset : LocalStorage.set b k cb (ttlOr ttl dttl) now dttl =
      (true, b2, [.writing k cb e, .written k cb e]) := by
    rw [set_quota_none b k cb (ttlOr ttl dttl) now dttl hq, ttlOr_idem, hb2,
      hedef]
  have hlook2 : b2.lookup k = some (.json (envelope cb e)) := by
    rw [hb2]
    show lookupEntry (setEntry b.items k _) k = _
    rw [lookupEntry_setEntry]
    simp
  have hexp : expiredAt now (envelope cb e) = false := by
    rw [hedef]
    exact expiredAt_computeExpiry_nonneg now cb (ttlOr ttl dttl) ht
  have hg2 := get_present fp b2 k .jnull now (envelope cb e) hlook2
    (envelope_not_isNull cb e) hexp
  have hg1 := get_absent fp b k .jnull now hk
  refine ⟨?_, ?_, ?_⟩
  · unfold remember
    rw [hg1]
    show (let s := LocalStorage.set b k cb (ttlOr ttl dttl) now dttl
      match get (fp + 1) s.2.1 k .jnull now with
      | .err b3 ev3 =>
        RememberRes.err b3 ([Event.retrieving k, Event.missed k] ++
          s.2.2 ++ ev3)
      | .ok v2 b3 ev3 =>
        .ok v2 b3 ([Event.retrieving k, Event.missed k] ++ s.2.2 ++ ev3)
          true) = _
    rw [hset]
    show (match get (fp + 1) b2 k .jnull now with
      | .err b3 ev3 =>
        RememberRes.err b3 ([Event.retrieving k, Event.missed k] ++
          [Event.writing k cb e, Event.written k cb e] ++ ev3)
      | .ok v2 b3 ev3 =>
        .ok v2 b3 ([Event.retrieving k, Event.missed k] ++
          [Event.writing k cb e, Event.written k cb e] ++ ev3) true) = _
    rw [hg2]
    rfl
  · unfold remember
    rw [hg2]
    cases cb <;> rfl
  · cases cb <;> rfl

/-- C7 amended witness. -/
theorem c7_remember_amended_witness :
    ((Backend.mk [] none).quota = none) ∧
    ((Backend.mk [] none : Backend).lookup "k" = none) ∧ (1 ≤ 1) ∧
    ttlNonneg (ttlOr none none) ∧
    (remember 1 ⟨[], none⟩ "k" (.jstr "x") none 100000 none =
      .ok (resolveData (envelope (.jstr "x")
          (computeExpiry (ttlOr none none) 100000)))
        (Backend.mk (setEntry [] "k"
          (.json (envelope (.jstr "x")
            (computeExpiry (ttlOr none none) 100000)))) none)
        [.retrieving "k", .missed "k",
         .writing "k" (.jstr "x") (computeExpiry (ttlOr none none) 100000),
         .written "k" (.jstr "x") (computeExpiry (ttlOr none none) 100000),
         .retrieving "k",
         .hit "k" (resolveData (envelope (.jstr "x")
           (computeExpiry (ttlOr none none) 100000)))] true ∧
    remember 1
        (Backend.mk (setEntry [] "k"
          (.json (envelope (.jstr "x")
            (computeExpiry (ttlOr none none) 100000)))) none)
        "k" (.jstr "y") none 100000 none =
      .ok (resolveData (envelope (.jstr "x")
          (computeExpiry (ttlOr none none) 100000)))
        (Backend.mk (setEntry [] "k"
          (.json (envelope (.jstr "x")
            (computeExpiry (ttlOr none none) 100000)))) none)
        [.retrieving "k",
         .hit "k" (resolveData (envelope (.jstr "x")
           (computeExpiry (ttlOr none none) 100000)))] false ∧
    resolveData (envelope (.jstr "x")
        (computeExpiry (ttlOr none none) 100000)) =
      cond (JsonVal.jstr "x").isNull
        (envelope (.jstr "x") (computeExpiry (ttlOr none none) 100000))
        (.jstr "x")) :=
  ⟨rfl, rfl, by decide, trivial,
    c7_remember_amended ⟨[], none⟩ "k" (.jstr "x") (.jstr "y") none 100000
      none 1 rfl rfl (by decide) trivial⟩

/-- touch after a successful non-null get is exactly the re-set of the
resolved item. -/
theorem touch_of_get_ok (fuel : Nat) (b b1 : Backend) (k : String)
    (ttl : Option Int) (now : Int) (dttl : Option Int) (item : JsonVal)
    (ev1 : List Event)
    (hg : get fuel b k .jnull now = .ok item b1 ev1)
    (hnn : item.isNull = false) :
    touch fuel b k ttl now dttl =
      .ok (LocalStorage.set b1 k item (ttlOr ttl dttl) now dttl).1
        (LocalStorage.set b1 k item (ttlOr ttl dttl) now dttl).2.1
        (ev1 ++ (LocalStorage.set b1 k item (ttlOr ttl dttl) now dttl).2.2) := by
  unfold touch
  rw [hg]
  cases item <;> simp_all [JsonVal.isNull]

/-- C8 counterexample: touching an entry whose stored payload is null
re-writes the entry with the old envelope object as the new payload —
the payload is not preserved. -/
theorem c8_touch_counterexample :
    (match touch 5
        (LocalStorage.set ⟨[], none⟩ "k" .jnull none 100000 none).2.1
        "k" (some 60) 100000 none with
     | .ok r b2 _ => (r, b2.lookup "k")
     | .err _ _ => (false, none)) =
      (true,
       some (.json (envelope (envelope .jnull none) (some 160000)))) ∧
    envelope .jnull none ≠ .jnull :=
  ⟨rfl, fun h => JsonVal.noConfusion h⟩

/-- C8 amended: for a present, unexpired entry stored with a non-null
payload, touch re-writes the entry preserving the payload exactly and
changing only the expiry (freshly computed from the given TTL or the
default), leaving every other key untouched; touch on an absent key
returns false and performs no backend write. A null payload is instead
re-wrapped: the old envelope object becomes the new payload. -/
theorem c8_touch_amended (b : Backend) (k : String) (v : JsonVal)
    (e : Option Int) (ttl : Option Int) (now : Int) (dttl : Option Int)
    (fuel : Nat) (hq : b.quota = none)
    (hk : b.lookup k = some (.json (envelope v e)))
    (hv : v.isNull = false)
    (hexp : expiredAt now (envelope v e) = false) :
    (touch (fuel + 1) b k ttl now dttl =
      .ok true
        (Backend.mk (setEntry b.items k
          (.json (envelope v (computeExpiry (ttlOr ttl dttl) now)))) none)
        [.retrieving k, .hit k v,
         .writing k v (computeExpiry (ttlOr ttl dttl) now),
         .written k v (computeExpiry (ttlOr ttl dttl) now)] ∧
     ∀ k2 : String,
       (Backend.mk (setEntry b.items k
          (.json (envelope v (computeExpiry (ttlOr ttl dttl) now))))
          none).lookup k2 =
         if k = k2 then
           some (.json (envelope v (computeExpiry (ttlOr ttl dttl) now)))
         else b.lookup k2) ∧
    (∀ (c : Backend) (k2 : String),
      (c.lookup k2).isSome = true ∨
        touch (fuel + 1) c k2 ttl now dttl =
          .ok false c [.retrieving k2, .missed k2]) := by
  have hg := get_present fuel b k .jnull now (envelope v e) hk
    (envelope_not_isNull v e) hexp
  rw [resolveData_envelope v e hv] at hg
  constructor
  · constructor
    · have hset := set_quota_none b k v (ttlOr ttl dttl) now dttl hq
      rw [ttlOr_idem] at hset
      rw [touch_of_get_ok (fuel + 1) b b k ttl now dttl v
        [.retrieving k, .hit k v] hg hv, hset]
      rfl
    · intro k2
      show lookupEntry (setEntry b.items k _) k2 = _
      rw [lookupEntry_setEntry]
      rfl
  · intro c k2
    by_cases hc : (c.lookup k2).isSome = true
    · exact Or.inl hc
    · refine Or.inr ?_
      have hn : c.lookup k2 = none := by
        cases h : c.lookup k2 with
        | none => rfl
        | some st => rw [h] at hc; simp at hc
      unfold touch
      rw [get_absent fuel c k2 .jnull now hn]

/-- C8 amended witness. -/
theorem c8_touch_amended_witness :
    ((Backend.mk [] none).quota = none) ∧
    ((Backend.mk [("k", .json (envelope (.jstr "v") none))] none :
        Backend).lookup "k" = some (.json (envelope (.jstr "v") none))) ∧
    ((JsonVal.jstr "v").isNull = false) ∧
    (expiredAt 100000 (envelope (.jstr "v") none) = false) ∧
    ((touch 5 (Backend.mk [("k", .json (envelope (.jstr "v") none))] none)
        "k" (some 60) 100000 none =
      .ok true
        (Backend.mk (setEntry [("k", .json (envelope (.jstr "v") none))] "k"
          (.json (envelope (.jstr "v")
            (computeExpiry (ttlOr (some 60) none) 100000)))) none)
        [.retrieving "k", .hit "k" (.jstr "v"),
         .writing "k" (.jstr "v") (computeExpiry (ttlOr (some 60) none) 100000),
         .written "k" (.jstr "v")
           (computeExpiry (ttlOr (some 60) none) 100000)] ∧
     ∀ k2 : String,
       (Backend.mk (setEntry [("k", .json (envelope (.jstr "v") none))] "k"
          (.json (envelope (.jstr "v")
            (computeExpiry (ttlOr (some 60) none) 100000)))) none).lookup k2 =
         if "k" = k2 then
           some (.json (envelope (.jstr "v")
             (computeExpiry (ttlOr (some 60) none) 100000)))
         else
           (Backend.mk [("k", .json (envelope (.jstr "v") none))] none :
             Backend).lookup k2) ∧
    (∀ (c : Backend) (k2 : String),
      (c.lookup k2).isSome = true ∨
        touch 5 c k2 (some 60) 100000 none =
          .ok false c [.retrieving k2, .missed k2])) :=
  ⟨rfl, rfl, rfl, rfl,
    c8_touch_amended (Backend.mk [("k", .json (envelope (.jstr "v") none))]
        none) "k" (.jstr "v") none (some 60) 100000 none 4 rfl rfl rfl rfl⟩

/-- C10 counterexample: a foreign JSON entry with an undefined data
field but a truthy past expiry is removed by get, which returns null —
not the entire parsed value the claim promises. -/
theorem c10_expired_foreign_counterexample :
    get 10 (Backend.mk [("k", .json (.jobj [("expiry", .jnum 1)]))] none)
        "k" .jnull 2 =
      .ok .jnull (Backend.mk [] none)
        [.retrieving "k", .retrieving "k", .retrieving "k", .retrieving "k",
         .hit "k" (.jstr (stringify (.jobj [("expiry", .jnum 1)]))),
         .forgotten "k", .forgotFailed "k", .forgotFailed "k"] ∧
    JsonVal.jobj [("expiry", .jnum 1)] ≠ .jnull :=
  ⟨rfl, fun h => JsonVal.noConfusion h⟩

/-- C10 amended: for every backend entry parsing to a JSON value other
than null whose expiry field is absent, null, or a number (the shapes
the engine writes, on which the modelled coercion is exact) that does
not trigger the expired check, and whose data field is null or
undefined, get returns the entire parsed value itself (in particular a
stored null payload comes back as the envelope object, never as null);
entries with a truthy past expiry are removed and yield null instead,
and entries parsing to JSON null follow the TypeError catch and return
the raw string. -/
theorem c10_amended (fuel : Nat) (b : Backend) (k : String) (v : JsonVal)
    (now : Int) (fb : JsonVal) (hk : b.lookup k = some (.json v))
    (hnn : v.isNull = false) (_hshape : expiryIntOrAbsent v = true)
    (hexp : expiredAt now v = false) (hd : dataNullish v = true) :
    get (fuel + 1) b k fb now = .ok v b [.retrieving k, .hit k v] := by
  rw [get_present fuel b k fb now v hk hnn hexp,
    resolveData_of_dataNullish v hd]

/-- C10 amended witness: a foreign entry with no data field. -/
theorem c10_amended_witness :
    ((Backend.mk [("k", .json (.jobj [("a", .jnum 7)]))] none :
        Backend).lookup "k" = some (.json (.jobj [("a", .jnum 7)]))) ∧
    ((JsonVal.jobj [("a", .jnum 7)]).isNull = false) ∧
    (expiryIntOrAbsent (.jobj [("a", .jnum 7)]) = true) ∧
    (expiredAt 2 (.jobj [("a", .jnum 7)]) = false) ∧
    (dataNullish (.jobj [("a", .jnum 7)]) = true) ∧
    get 10 (Backend.mk [("k", .json (.jobj [("a", .jnum 7)]))] none)
        "k" .jnull 2 =
      .ok (.jobj [("a", .jnum 7)]) (Backend.mk [("k", .json (.jobj [("a", .jnum 7)]))] none)
        [.retrieving "k", .hit "k" (.jobj [("a", .jnum 7)])] :=
  ⟨rfl, rfl, rfl, rfl, rfl,
    c10_amended 9 (Backend.mk [("k", .json (.jobj [("a", .jnum 7)]))] none)
      "k" (.jobj [("a", .jnum 7)]) 2 .jnull rfl rfl rfl rfl rfl⟩

end LocalStorageSpec
